import Mathlib

/-!
Shallow embedding of the `id_gen` package of `Tealseed-Lab/easy_go_lib`
(file `id_gen/id_gen.go`), together with theorems settling the
specification claims about it.

Go `int64` values are modelled as `Int`; the bitwise operators of Go are
modelled through the 64-bit two's-complement bit pattern of the value
(a `Nat` below `2 ^ 64`), so overflow behaves exactly as in Go.
-/

namespace EasyGoLib

/-- The 64-bit two's-complement bit pattern of an `int64` value. -/
def toBits64 (x : Int) : Nat := (x % (2 : Int) ^ 64).toNat

/-- Reinterpret a 64-bit pattern as a signed `int64` value. -/
def ofBits64 (n : Nat) : Int :=
  if n < 2 ^ 63 then (n : Int) else (n : Int) - 2 ^ 64

/-- Go `a & b` on `int64`. -/
def int64and (a b : Int) : Int := ofBits64 (toBits64 a &&& toBits64 b)

/-- Go `a | b` on `int64`. -/
def int64or (a b : Int) : Int := ofBits64 (toBits64 a ||| toBits64 b)

/-- Go `a << k` on `int64` (the result is truncated to 64 bits). -/
def int64shl (a : Int) (k : Nat) : Int := ofBits64 (toBits64 a <<< k % 2 ^ 64)

/-- Go `a >> k` on `int64`: an arithmetic shift, i.e. floor division by `2 ^ k`. -/
def int64shr (a : Int) (k : Nat) : Int := Int.fdiv a ((2 : Int) ^ k)

/-! ## Node Identity Resolver (`getMachineID`, `getLastIPOctet`)

The environment of `net.InterfaceAddrs()` is modelled explicitly: `none`
models the enumeration returning an error, `some addrs` a successful
enumeration.  Each address records whether the type assertion to
`*net.IPNet` succeeds, whether `IP.IsLoopback()` holds, and the result of
`IP.To4()` (the four bytes, or `none` for a nil slice). -/

/-- One element of the list returned by `net.InterfaceAddrs()`. -/
structure InterfaceAddr where
  isIPNet : Bool
  isLoopback : Bool
  to4 : Option (Fin 256 × Fin 256 × Fin 256 × Fin 256)
deriving DecidableEq

/-- The `for` loop of `getLastIPOctet`: the first non-loopback `*net.IPNet`
address with a 4-byte form yields `int(ipv4[3])`; falling off the end of the
loop yields `0`. -/
def findOctet : List InterfaceAddr → Int
  | [] => 0
  | a :: rest =>
    if a.isIPNet && !a.isLoopback then
      match a.to4 with
      | some (_, _, _, b3) => ((b3 : Nat) : Int)
      | none => findOctet rest
    else findOctet rest

/-- `getLastIPOctet` from `id_gen.go`.  The second component is whether the
returned `error` is non-nil: `(0, err)` when enumeration fails, otherwise
`(octet, nil)` — note that finding no qualifying address still returns a
nil error, with value `0`. -/
def getLastIPOctet : Option (List InterfaceAddr) → Int × Bool
  | none => (0, true)
  | some addrs => (findOctet addrs, false)

/-- `getMachineID` from `id_gen.go`: the IP octet when `err == nil`,
otherwise `int64(pid % 1024)` where `pid = os.Getpid()`. -/
def getMachineID (env : Option (List InterfaceAddr)) (pid : Nat) : Int :=
  match getLastIPOctet env with
  | (ip, false) => ip
  | (_, true) => ((pid % 1024 : Nat) : Int)

/-- A successful enumeration that contains no non-loopback `*net.IPNet`
address in 4-byte form (the "no qualifying address" situation of the spec). -/
def noQualifyingAddr (addrs : List InterfaceAddr) : Prop :=
  ∀ a ∈ addrs, a.isIPNet = true → a.isLoopback = false → a.to4 = none

def noQualifyingAddr.dec (addrs : List InterfaceAddr) :
    Decidable (noQualifyingAddr addrs) := by
  unfold noQualifyingAddr
  infer_instance

attribute [instance] noQualifyingAddr.dec

/-! ## Snowflake generator -/

/-- The mutable state of `SnowflakeGenerator` (the `sync.Mutex` serialises
calls; a call is modelled as an atomic state transition). -/
structure SnowflakeGenerator where
  lastTimestamp : Int
  sequence : Int
  machineID : Int
deriving DecidableEq

/-- `NewSnowflakeGenerator` from `id_gen.go`: `machineID & 0x3FF`. -/
def NewSnowflakeGenerator (machineID : Int) : SnowflakeGenerator :=
  { lastTimestamp := 0, sequence := 0, machineID := int64and machineID 0x3FF }

/-- The busy-poll loop of `GenerateSnowflakeID`:
`for timestamp <= sg.lastTimestamp { select ... }`.
`rs` holds the readings that `time.Now().UnixMilli()` would deliver before
the 1 ms timeout channel fires; once they are exhausted the `<-timeout`
branch runs and sets `timestamp = lastTimestamp + 1` (after which the loop
condition fails). -/
def pollLoop (last : Int) (ts : Int) : List Int → Int
  | [] => if ts ≤ last then last + 1 else ts
  | r :: rs => if ts ≤ last then pollLoop last r rs else ts

/-- The composed identifier
`(timestamp << 22) | (machineID << 12) | sequence`. -/
def composeId (ts m s : Int) : Int :=
  int64or (int64or (int64shl ts 22) (int64shl m 12)) s

/-- `(sg *SnowflakeGenerator) GenerateSnowflakeID` from `id_gen.go`.
`now` is the reading of `time.Now().UnixMilli()` taken at entry and
`polls` the readings available to the busy-poll before the timeout fires.
Returns the minted identifier together with the updated state. -/
def SnowflakeGenerator.GenerateSnowflakeID (sg : SnowflakeGenerator)
    (now : Int) (polls : List Int) : Int × SnowflakeGenerator :=
  if now = sg.lastTimestamp then
    let seq := int64and (sg.sequence + 1) 0xFFF
    if seq = 0 then
      let ts := pollLoop sg.lastTimestamp now polls
      (composeId ts sg.machineID seq,
        { sg with lastTimestamp := ts, sequence := seq })
    else
      (composeId now sg.machineID seq,
        { sg with lastTimestamp := now, sequence := seq })
  else
    (composeId now sg.machineID 0,
      { sg with lastTimestamp := now, sequence := 0 })

/-- A sequence of `GenerateSnowflakeID` calls on one generator, each with
its clock readings; returns the minted identifiers in order of return. -/
def runMint (sg : SnowflakeGenerator) : List (Int × List Int) → List Int
  | [] => []
  | (now, polls) :: rest =>
    (sg.GenerateSnowflakeID now polls).1 ::
      runMint (sg.GenerateSnowflakeID now polls).2 rest

/-- State invariant of the generator, established by the constructor and
preserved by every call whose clock readings do not run backwards. -/
def Inv (sg : SnowflakeGenerator) : Prop :=
  0 ≤ sg.lastTimestamp ∧ 0 ≤ sg.sequence ∧ sg.sequence < 4096 ∧
    0 ≤ sg.machineID ∧ sg.machineID < 1024

/-- The (exact, overflow-free) numeric value of the identifier encoded by a
state's watermark fields; each call returns exactly `idVal` of its post
state. -/
def idVal (sg : SnowflakeGenerator) : Int :=
  sg.lastTimestamp * 2 ^ 22 + sg.machineID * 2 ^ 12 + sg.sequence

/-- The clock behaves well along a run: at each call, the reading at entry
is at least the generator's watermark (no backward observation), and all
readings fit in 41 bits (they are `UnixMilli` values; `2 ^ 40` ms is
reached in year 36812). -/
def ClockOK (sg : SnowflakeGenerator) : List (Int × List Int) → Prop
  | [] => True
  | (now, polls) :: rest =>
    sg.lastTimestamp ≤ now ∧ now ≤ 2 ^ 40 ∧ (∀ r ∈ polls, r ≤ 2 ^ 40) ∧
      ClockOK (sg.GenerateSnowflakeID now polls).2 rest

def ClockOK.dec (sg : SnowflakeGenerator) :
    (calls : List (Int × List Int)) → Decidable (ClockOK sg calls)
  | [] => isTrue trivial
  | (now, polls) :: rest => by
    have : Decidable (ClockOK (sg.GenerateSnowflakeID now polls).2 rest) :=
      ClockOK.dec _ rest
    unfold ClockOK
    infer_instance

attribute [instance] ClockOK.dec

/-- State after `n` calls, all with the same clock readings. -/
def iterMint (now : Int) (polls : List Int) (sg : SnowflakeGenerator) : Nat → SnowflakeGenerator
  | 0 => sg
  | n + 1 => ((iterMint now polls sg n).GenerateSnowflakeID now polls).2

/-! ## Random hex strings (`GenerateRandomHexString`) -/

/-- The digit table of `encoding/hex`. -/
def hexTable : List Char := "0123456789abcdef".data

/-- `hex.EncodeToString` on one byte: `hextable[b>>4]` then `hextable[b&0x0f]`. -/
def hexEncodeByte (b : Nat) : List Char :=
  [hexTable.getD (b >>> 4) '0', hexTable.getD (b &&& 0x0f) '0']

/-- `hex.EncodeToString` on a byte slice. -/
def hexEncodeToString (bs : List Nat) : String :=
  String.mk (bs.flatMap hexEncodeByte)

/-- `GenerateRandomHexString` from `id_gen.go`.  `length` is the Go `int`
argument; `entropy` models `crypto/rand.Read`: `none` is a failed read
(the function then returns `""`), `some f` a successful read filling byte
`i` with `f i % 256`.  `make([]byte, length)` aborts the program for a
negative `length`, modelled as `none`. -/
def GenerateRandomHexString (length : Int) (entropy : Option (Nat → Nat)) :
    Option String :=
  if length < 0 then none
  else
    match entropy with
    | none => some ""
    | some f =>
      some (hexEncodeToString ((List.range length.toNat).map (fun i => f i % 256)))

/-! ## Basic lemmas about the `int64` model -/

theorem toBits64_of_nonneg {x : Int} (h0 : 0 ≤ x) (h1 : x < 2 ^ 63) :
    toBits64 x = x.toNat := by
  unfold toBits64
  rw [Int.emod_eq_of_lt h0 (by norm_num at h1 ⊢; omega)]

theorem ofBits64_of_lt {n : Nat} (h : n < 2 ^ 63) : ofBits64 n = n := by
  unfold ofBits64
  rw [if_pos h]

theorem int64and_eq {a b : Int} (ha0 : 0 ≤ a) (ha : a < 2 ^ 63)
    (hb0 : 0 ≤ b) (hb : b < 2 ^ 63) :
    int64and a b = ((a.toNat &&& b.toNat : Nat) : Int) := by
  unfold int64and
  rw [toBits64_of_nonneg ha0 ha, toBits64_of_nonneg hb0 hb, ofBits64_of_lt]
  exact lt_of_le_of_lt Nat.and_le_right (by norm_num at hb ⊢; omega)

/-- For any `int64` value `a` and nonnegative small mask `b`,
`a & b` lands in `[0, b]`. -/
theorem int64and_mask_bounds (a : Int) {b : Int} (hb0 : 0 ≤ b) (hb : b < 2 ^ 63) :
    0 ≤ int64and a b ∧ int64and a b ≤ b := by
  unfold int64and
  rw [toBits64_of_nonneg hb0 hb]
  have hle : toBits64 a &&& b.toNat ≤ b.toNat := Nat.and_le_right
  rw [ofBits64_of_lt (lt_of_le_of_lt hle (by norm_num at hb ⊢; omega))]
  constructor
  · exact Int.natCast_nonneg _
  · omega

/-- The sequence update `(sequence + 1) & 0xFFF` on the invariant range. -/
theorem seq_mask_eq {s : Int} (h0 : 0 ≤ s) (h1 : s < 4096) :
    int64and (s + 1) 0xFFF = if s = 4095 then 0 else s + 1 := by
  rw [int64and_eq (by omega) (by norm_num; omega) (by norm_num) (by norm_num)]
  have h4095 : (0xFFF : Int).toNat = 2 ^ 12 - 1 := by decide
  rw [h4095, Nat.and_pow_two_sub_one_eq_mod]
  rcases eq_or_ne s 4095 with rfl | hne
  · norm_num
  · rw [if_neg hne]
    have : (s + 1).toNat % 2 ^ 12 = (s + 1).toNat := Nat.mod_eq_of_lt (by norm_num; omega)
    rw [this]
    omega

theorem int64shl_eq {a : Int} (h0 : 0 ≤ a) {k : Nat} (h1 : a * 2 ^ k < 2 ^ 63) :
    int64shl a k = a * 2 ^ k := by
  have hk : (1 : Int) ≤ 2 ^ k := one_le_pow₀ (by norm_num)
  have ha : a < 2 ^ 63 := lt_of_le_of_lt (le_mul_of_one_le_right h0 hk) h1
  unfold int64shl
  rw [toBits64_of_nonneg h0 ha, Nat.shiftLeft_eq]
  have hNat : a.toNat * 2 ^ k < 2 ^ 63 := by
    have h2 : ((a.toNat * 2 ^ k : Nat) : Int) < ((2 ^ 63 : Nat) : Int) := by
      push_cast [Int.toNat_of_nonneg h0]
      exact h1
    exact_mod_cast h2
  rw [Nat.mod_eq_of_lt (lt_trans hNat (by norm_num))]
  rw [ofBits64_of_lt hNat]
  push_cast [Int.toNat_of_nonneg h0]
  ring

theorem int64or_eq {a b : Int} (ha0 : 0 ≤ a) (ha : a < 2 ^ 63)
    (hb0 : 0 ≤ b) (hb : b < 2 ^ 63) :
    int64or a b = ((a.toNat ||| b.toNat : Nat) : Int) := by
  unfold int64or
  rw [toBits64_of_nonneg ha0 ha, toBits64_of_nonneg hb0 hb, ofBits64_of_lt]
  exact Nat.or_lt_two_pow (by norm_num at ha ⊢; omega) (by norm_num at hb ⊢; omega)

theorem int64shr_eq {a : Int} (h0 : 0 ≤ a) (k : Nat) :
    int64shr a k = ((a.toNat / 2 ^ k : Nat) : Int) := by
  unfold int64shr
  obtain ⟨n, rfl⟩ := Int.eq_ofNat_of_zero_le h0
  rw [show ((2 : Int) ^ k) = ((2 ^ k : Nat) : Int) by push_cast; ring,
    Int.toNat_natCast, Int.ofNat_fdiv]

/-- Arithmetic form of the composed identifier, on the ranges the generator
actually uses: no 64-bit overflow occurs. -/
theorem composeId_eq {ts m s : Int} (hts0 : 0 ≤ ts) (hts : ts < 2 ^ 41)
    (hm0 : 0 ≤ m) (hm : m < 1024) (hs0 : 0 ≤ s) (hs : s < 4096) :
    composeId ts m s = ts * 2 ^ 22 + m * 2 ^ 12 + s := by
  obtain ⟨A, rfl⟩ := Int.eq_ofNat_of_zero_le hts0
  obtain ⟨B, rfl⟩ := Int.eq_ofNat_of_zero_le hm0
  obtain ⟨S, rfl⟩ := Int.eq_ofNat_of_zero_le hs0
  have hA : A < 2 ^ 41 := by exact_mod_cast hts
  have hB : B < 1024 := by exact_mod_cast hm
  have hS : S < 4096 := by exact_mod_cast hs
  have hA63 : A * 2 ^ 22 < 2 ^ 63 := by omega
  have hB63 : B * 2 ^ 12 < 2 ^ 22 := by omega
  unfold composeId
  have e1 : int64shl (↑A) 22 = ((A * 2 ^ 22 : Nat) : Int) := by
    rw [int64shl_eq (Int.natCast_nonneg A)
      (by exact_mod_cast (show ((A * 2 ^ 22 : Nat) : Int) < ((2 ^ 63 : Nat) : Int) by
        exact_mod_cast hA63))]
    push_cast
    ring
  have e2 : int64shl (↑B) 12 = ((B * 2 ^ 12 : Nat) : Int) := by
    rw [int64shl_eq (Int.natCast_nonneg B)
      (by exact_mod_cast (show ((B * 2 ^ 12 : Nat) : Int) < ((2 ^ 63 : Nat) : Int) by
        exact_mod_cast (lt_trans hB63 (by norm_num : (2 : Nat) ^ 22 < 2 ^ 63))))]
    push_cast
    ring
  have hor1 : A * 2 ^ 22 ||| B * 2 ^ 12 = A * 2 ^ 22 + B * 2 ^ 12 := by
    rw [show A * 2 ^ 22 = 2 ^ 22 * A from Nat.mul_comm _ _,
      ← Nat.mul_add_lt_is_or hB63 A]
  have hor2 : (A * 2 ^ 22 + B * 2 ^ 12) ||| S = A * 2 ^ 22 + B * 2 ^ 12 + S := by
    rw [show A * 2 ^ 22 + B * 2 ^ 12 = 2 ^ 12 * (A * 2 ^ 10 + B) by ring,
      ← Nat.mul_add_lt_is_or (show S < 2 ^ 12 by omega)]
  have e3 : int64or ((A * 2 ^ 22 : Nat) : Int) ((B * 2 ^ 12 : Nat) : Int)
      = ((A * 2 ^ 22 + B * 2 ^ 12 : Nat) : Int) := by
    rw [int64or_eq (Int.natCast_nonneg _)
        (by exact_mod_cast hA63) (Int.natCast_nonneg _)
        (by exact_mod_cast (lt_trans hB63 (by norm_num : (2 : Nat) ^ 22 < 2 ^ 63))),
      Int.toNat_natCast, Int.toNat_natCast, hor1]
  have e4 : int64or ((A * 2 ^ 22 + B * 2 ^ 12 : Nat) : Int) (↑S)
      = ((A * 2 ^ 22 + B * 2 ^ 12 + S : Nat) : Int) := by
    rw [int64or_eq (Int.natCast_nonneg _)
        (by exact_mod_cast (show A * 2 ^ 22 + B * 2 ^ 12 < 2 ^ 63 by omega))
        (Int.natCast_nonneg _)
        (by exact_mod_cast (show S < 2 ^ 63 by omega)),
      Int.toNat_natCast, Int.toNat_natCast, hor2]
  rw [e1, e2, e3, e4]
  push_cast
  ring

/-- Decoding the timestamp field: `value >> 22`. -/
theorem decode_ts {ts m s : Int} (hts0 : 0 ≤ ts) (hts : ts < 2 ^ 41)
    (hm0 : 0 ≤ m) (hm : m < 1024) (hs0 : 0 ≤ s) (hs : s < 4096) :
    int64shr (composeId ts m s) 22 = ts := by
  rw [composeId_eq hts0 hts hm0 hm hs0 hs,
    int64shr_eq (by positivity) 22]
  omega

/-- Decoding the node discriminator field: `(value >> 12) & 0x3FF`. -/
theorem decode_machine {ts m s : Int} (hts0 : 0 ≤ ts) (hts : ts < 2 ^ 41)
    (hm0 : 0 ≤ m) (hm : m < 1024) (hs0 : 0 ≤ s) (hs : s < 4096) :
    int64and (int64shr (composeId ts m s) 12) 0x3FF = m := by
  rw [composeId_eq hts0 hts hm0 hm hs0 hs,
    int64shr_eq (by positivity) 12]
  rw [int64and_eq (Int.natCast_nonneg _)
    (by exact_mod_cast (show (ts * 2 ^ 22 + m * 2 ^ 12 + s).toNat / 2 ^ 12 < 2 ^ 63 by omega))
    (by norm_num) (by norm_num)]
  rw [Int.toNat_natCast, show (0x3FF : Int).toNat = 2 ^ 10 - 1 by decide,
    Nat.and_pow_two_sub_one_eq_mod]
  omega

/-- Decoding the sequence field: `value & 0xFFF`. -/
theorem decode_seq {ts m s : Int} (hts0 : 0 ≤ ts) (hts : ts < 2 ^ 41)
    (hm0 : 0 ≤ m) (hm : m < 1024) (hs0 : 0 ≤ s) (hs : s < 4096) :
    int64and (composeId ts m s) 0xFFF = s := by
  rw [composeId_eq hts0 hts hm0 hm hs0 hs]
  rw [int64and_eq (by positivity)
    (by omega) (by norm_num) (by norm_num)]
  rw [show (0xFFF : Int).toNat = 2 ^ 12 - 1 by decide,
    Nat.and_pow_two_sub_one_eq_mod]
  omega

/-! ## The busy-poll loop -/

/-- The poll loop only exits with a timestamp strictly beyond the watermark. -/
theorem pollLoop_gt (last : Int) (ts : Int) (rs : List Int) :
    last < pollLoop last ts rs := by
  induction rs generalizing ts with
  | nil => simp only [pollLoop]; split <;> omega
  | cons r rs ih =>
    simp only [pollLoop]
    split
    · exact ih r
    · omega

/-- The poll loop exits either via the timeout (`lastTimestamp + 1`) or with
one of the clock readings it observed. -/
theorem pollLoop_cases (last : Int) (ts : Int) (rs : List Int) :
    pollLoop last ts rs = last + 1 ∨ pollLoop last ts rs ∈ ts :: rs := by
  induction rs generalizing ts with
  | nil =>
    simp only [pollLoop]
    split
    · exact Or.inl rfl
    · exact Or.inr (List.mem_singleton.mpr rfl)
  | cons r rs ih =>
    simp only [pollLoop]
    split
    · rcases ih r with h | h
      · exact Or.inl h
      · exact Or.inr (List.mem_cons_of_mem _ h)
    · exact Or.inr (List.mem_cons_self _ _)

/-- Upper bound for the poll-loop result from a bound on the readings. -/
theorem pollLoop_le {last ts B : Int} {rs : List Int} (hts : ts ≤ B)
    (hrs : ∀ r ∈ rs, r ≤ B) : pollLoop last ts rs ≤ max B (last + 1) := by
  rcases pollLoop_cases last ts rs with h | h
  · rw [h]; exact le_max_right _ _
  · rcases List.mem_cons.mp h with h' | h'
    · rw [h']; exact le_trans hts (le_max_left _ _)
    · exact le_trans (hrs _ h') (le_max_left _ _)

/-! ## Generator state invariant and single-call analysis -/

theorem Inv_new (d : Int) : Inv (NewSnowflakeGenerator d) := by
  obtain ⟨h0, h1⟩ := int64and_mask_bounds d (by norm_num : (0 : Int) ≤ 0x3FF)
    (by norm_num : (0x3FF : Int) < 2 ^ 63)
  unfold Inv NewSnowflakeGenerator
  dsimp only
  exact ⟨le_refl 0, le_refl 0, by norm_num, h0, by omega⟩

/-- Branch equation: same millisecond, sequence wraps to `0`. -/
theorem mint_eq_wrap {sg : SnowflakeGenerator} {now : Int} (polls : List Int)
    (heq : now = sg.lastTimestamp) (hmask : int64and (sg.sequence + 1) 0xFFF = 0) :
    sg.GenerateSnowflakeID now polls
      = (composeId (pollLoop sg.lastTimestamp now polls) sg.machineID 0,
         { sg with lastTimestamp := pollLoop sg.lastTimestamp now polls, sequence := 0 }) := by
  unfold SnowflakeGenerator.GenerateSnowflakeID
  rw [if_pos heq]
  simp only [hmask, if_pos]

/-- Branch equation: same millisecond, sequence increments without wrap. -/
theorem mint_eq_incr {sg : SnowflakeGenerator} {now : Int} (polls : List Int)
    (heq : now = sg.lastTimestamp)
    (hmask : int64and (sg.sequence + 1) 0xFFF = sg.sequence + 1)
    (hne : sg.sequence + 1 ≠ 0) :
    sg.GenerateSnowflakeID now polls
      = (composeId now sg.machineID (sg.sequence + 1),
         { sg with lastTimestamp := now, sequence := sg.sequence + 1 }) := by
  unfold SnowflakeGenerator.GenerateSnowflakeID
  rw [if_pos heq]
  simp only [hmask, if_neg hne]

/-- Branch equation: the clock reading differs from the watermark. -/
theorem mint_eq_diff {sg : SnowflakeGenerator} {now : Int} (polls : List Int)
    (hne : now ≠ sg.lastTimestamp) :
    sg.GenerateSnowflakeID now polls
      = (composeId now sg.machineID 0,
         { sg with lastTimestamp := now, sequence := 0 }) := by
  unfold SnowflakeGenerator.GenerateSnowflakeID
  rw [if_neg hne]

/-- Core single-call lemma: under the invariant, when the clock reading at
entry is at least the watermark (and all readings fit in 41 bits), the call
preserves the invariant, keeps the machine id, bounds the new watermark,
returns exactly the value encoded by its post state, and that value is
strictly larger than the value encoded by the pre state. -/
theorem mint_step {sg : SnowflakeGenerator} {now : Int} {polls : List Int}
    (hInv : Inv sg) (hlast : sg.lastTimestamp ≤ now) (hnow : now ≤ 2 ^ 40)
    (hpolls : ∀ r ∈ polls, r ≤ 2 ^ 40) :
    Inv (sg.GenerateSnowflakeID now polls).2 ∧
    (sg.GenerateSnowflakeID now polls).2.machineID = sg.machineID ∧
    (sg.GenerateSnowflakeID now polls).2.lastTimestamp ≤ 2 ^ 40 + 1 ∧
    (sg.GenerateSnowflakeID now polls).1 = idVal (sg.GenerateSnowflakeID now polls).2 ∧
    idVal sg < idVal (sg.GenerateSnowflakeID now polls).2 := by
  obtain ⟨hl0, hs0, hs1, hm0, hm1⟩ := hInv
  by_cases heq : now = sg.lastTimestamp
  · by_cases hwrap : sg.sequence = 4095
    · have hmask : int64and (sg.sequence + 1) 0xFFF = 0 := by
        rw [seq_mask_eq hs0 hs1, if_pos hwrap]
      rw [mint_eq_wrap polls heq hmask]
      have hgt : sg.lastTimestamp < pollLoop sg.lastTimestamp now polls :=
        pollLoop_gt _ _ _
      have hle : pollLoop sg.lastTimestamp now polls ≤ max (2 ^ 40) (sg.lastTimestamp + 1) :=
        pollLoop_le hnow hpolls
      refine ⟨⟨by dsimp only; omega, by norm_num, by norm_num, hm0, hm1⟩, rfl,
        by dsimp only; omega, ?_, ?_⟩
      · simp only [idVal]
        exact composeId_eq (by omega) (by omega) hm0 hm1 (by norm_num) (by norm_num)
      · simp only [idVal, hwrap]
        omega
    · have hmask : int64and (sg.sequence + 1) 0xFFF = sg.sequence + 1 := by
        rw [seq_mask_eq hs0 hs1, if_neg hwrap]
      rw [mint_eq_incr polls heq hmask (by omega)]
      refine ⟨⟨by dsimp only; omega, by dsimp only; omega, by dsimp only; omega, hm0, hm1⟩,
        rfl, by dsimp only; omega, ?_, ?_⟩
      · simp only [idVal]
        exact composeId_eq (by omega) (by omega) hm0 hm1 (by omega) (by omega)
      · simp only [idVal]
        omega
  · rw [mint_eq_diff polls heq]
    have hlt : sg.lastTimestamp < now := lt_of_le_of_ne hlast (fun h => heq h.symm)
    refine ⟨⟨by dsimp only; omega, by norm_num, by norm_num, hm0, hm1⟩, rfl,
      by dsimp only; omega, ?_, ?_⟩
    · simp only [idVal]
      exact composeId_eq (by omega) (by omega) hm0 hm1 (by norm_num) (by norm_num)
    · simp only [idVal]
      omega

/-! ## Runs of calls -/

theorem runMint_length (sg : SnowflakeGenerator) (calls : List (Int × List Int)) :
    (runMint sg calls).length = calls.length := by
  induction calls generalizing sg with
  | nil => rfl
  | cons c rest ih =>
    obtain ⟨now, polls⟩ := c
    simp only [runMint, List.length_cons, ih]

/-- Every identifier minted along a well-clocked run is strictly above the
value encoded by the starting state. -/
theorem runMint_lt_all {sg : SnowflakeGenerator} {calls : List (Int × List Int)}
    (hInv : Inv sg) (hck : ClockOK sg calls) :
    ∀ y ∈ runMint sg calls, idVal sg < y := by
  induction calls generalizing sg with
  | nil => intro y hy; simp [runMint] at hy
  | cons c rest ih =>
    obtain ⟨now, polls⟩ := c
    obtain ⟨h1, h2, h3, h4⟩ := hck
    obtain ⟨hInv', _, _, hid, hlt⟩ := mint_step hInv h1 h2 h3
    intro y hy
    rcases List.mem_cons.mp hy with rfl | hy'
    · rw [hid]; exact hlt
    · exact lt_trans hlt (ih hInv' h4 y hy')

/-- Identifiers of a well-clocked run are strictly increasing in order of
return. -/
theorem runMint_pairwise_lt {sg : SnowflakeGenerator} {calls : List (Int × List Int)}
    (hInv : Inv sg) (hck : ClockOK sg calls) :
    List.Pairwise (· < ·) (runMint sg calls) := by
  induction calls generalizing sg with
  | nil => exact List.Pairwise.nil
  | cons c rest ih =>
    obtain ⟨now, polls⟩ := c
    obtain ⟨h1, h2, h3, h4⟩ := hck
    obtain ⟨hInv', _, _, hid, hlt⟩ := mint_step hInv h1 h2 h3
    refine List.Pairwise.cons ?_ (ih hInv' h4)
    intro y hy
    rw [hid]
    exact runMint_lt_all hInv' h4 y hy

/-! ## Runs with a constant (stalled) clock -/

theorem iterMint_succ (now : Int) (polls : List Int) (sg : SnowflakeGenerator)
    (n : Nat) :
    iterMint now polls sg (n + 1)
      = ((iterMint now polls sg n).GenerateSnowflakeID now polls).2 := rfl

theorem iterMint_succ_left (now : Int) (polls : List Int) (sg : SnowflakeGenerator)
    (n : Nat) :
    iterMint now polls (sg.GenerateSnowflakeID now polls).2 n = iterMint now polls sg (n + 1) := by
  induction n with
  | zero => rfl
  | succ k ih => simp only [iterMint, ih]

/-- The `j`-th identifier of a constant-clock run. -/
theorem runMint_replicate_get? (sg : SnowflakeGenerator) (now : Int) (polls : List Int)
    (n j : Nat) :
    (runMint sg (List.replicate n (now, polls))).get? j
      = if j < n then some ((iterMint now polls sg j).GenerateSnowflakeID now polls).1
        else none := by
  induction n generalizing sg j with
  | zero => simp [runMint]
  | succ k ih =>
    rw [List.replicate_succ]
    match j with
    | 0 => simp [runMint, iterMint]
    | j' + 1 =>
      simp only [runMint, List.get?_cons_succ, ih, iterMint_succ_left]
      rcases Nat.lt_or_ge j' k with h | h
      · rw [if_pos h, if_pos (by omega)]
      · rw [if_neg (by omega), if_neg (by omega)]

/-- After `j ∈ [1, 4096]` calls with a constant nonzero clock `T`, the fresh
generator's state is `⟨T, j - 1, d & 0x3FF⟩`. -/
theorem stalled_state (d T : Int) (hT : T ≠ 0) :
    ∀ j : Nat, 1 ≤ j → j ≤ 4096 →
      iterMint T [] (NewSnowflakeGenerator d) j
        = { lastTimestamp := T, sequence := (j : Int) - 1,
            machineID := int64and d 0x3FF } := by
  intro j
  induction j with
  | zero => omega
  | succ k ih =>
    intro _ hk
    match k, ih with
    | 0, _ =>
      show ((NewSnowflakeGenerator d).GenerateSnowflakeID T []).2 = _
      rw [mint_eq_diff [] (by exact hT : T ≠ (NewSnowflakeGenerator d).lastTimestamp)]
      simp [NewSnowflakeGenerator]
    | k' + 1, ih =>
      have hstate := ih (by omega) (by omega)
      show ((iterMint T [] (NewSnowflakeGenerator d) (k' + 1)).GenerateSnowflakeID T []).2 = _
      rw [hstate]
      rw [mint_eq_incr [] rfl (by
          rw [seq_mask_eq (by push_cast; omega) (by push_cast; omega)]
          rw [if_neg (by push_cast; omega)])
        (by push_cast; omega)]
      have : ((k' + 1 : Nat) : Int) - 1 + 1 = ((k' + 1 + 1 : Nat) : Int) - 1 := by
        push_cast; ring
      rw [this]

theorem clockOK_nil (sg : SnowflakeGenerator) : ClockOK sg [] := trivial

theorem clockOK_cons {sg : SnowflakeGenerator} {now : Int} {polls : List Int}
    {rest : List (Int × List Int)} :
    ClockOK sg ((now, polls) :: rest) ↔
      (sg.lastTimestamp ≤ now ∧ now ≤ 2 ^ 40 ∧ (∀ r ∈ polls, r ≤ 2 ^ 40) ∧
        ClockOK (sg.GenerateSnowflakeID now polls).2 rest) :=
  Iff.rfl

/-- The identifier minted by call `j + 1` (0-indexed call `j`) of a run with
constant nonzero clock `T` from a fresh generator, for `j ≤ 4096`: the first
4096 calls yield sequence numbers `0..4095` at timestamp `T`, and call 4097
forces the timestamp to `T + 1`. -/
theorem stalled_id (d T : Int) (hT : T ≠ 0) (j : Nat) (hj : j ≤ 4096) :
    ((iterMint T [] (NewSnowflakeGenerator d) j).GenerateSnowflakeID T []).1
      = if j < 4096 then composeId T (int64and d 0x3FF) (j : Int)
        else composeId (T + 1) (int64and d 0x3FF) 0 := by
  match j with
  | 0 =>
    rw [if_pos (by norm_num)]
    show ((NewSnowflakeGenerator d).GenerateSnowflakeID T []).1 = _
    rw [mint_eq_diff [] (by exact hT : T ≠ (NewSnowflakeGenerator d).lastTimestamp)]
    simp [NewSnowflakeGenerator]
  | j' + 1 =>
    rw [stalled_state d T hT (j' + 1) (by omega) hj]
    by_cases h : j' + 1 < 4096
    · rw [if_pos h]
      rw [mint_eq_incr [] rfl
        (by rw [seq_mask_eq (by push_cast; omega) (by push_cast; omega),
          if_neg (by push_cast; omega)])
        (by push_cast; omega)]
      dsimp only
      congr 1
      push_cast
      ring
    · rw [if_neg h]
      have hj4096 : j' + 1 = 4096 := by omega
      rw [mint_eq_wrap [] rfl
        (by rw [seq_mask_eq (by push_cast; omega) (by push_cast; omega),
          if_pos (by push_cast; omega)])]
      dsimp only
      rw [show pollLoop T T [] = T + 1 by simp [pollLoop]]

theorem stalled_clockOK_aux (mm T : Int) (hT : T ≤ 2 ^ 40) :
    ∀ (k : Nat) (s : Int), 0 ≤ s → s + k ≤ 4096 →
      ClockOK { lastTimestamp := T, sequence := s, machineID := mm }
        (List.replicate k (T, [])) := by
  intro k
  induction k with
  | zero => intro s _ _; exact clockOK_nil _
  | succ k' ih =>
    intro s hs0 hsk
    rw [List.replicate_succ, clockOK_cons]
    rcases Nat.eq_zero_or_pos k' with rfl | hk'
    · exact ⟨le_refl T, hT, by simp, clockOK_nil _⟩
    · refine ⟨le_refl T, hT, by simp, ?_⟩
      rw [mint_eq_incr [] rfl
        (by dsimp only; rw [seq_mask_eq hs0 (by omega), if_neg (by omega)])
        (by dsimp only; omega)]
      exact ih (s + 1) (by omega) (by omega)

/-- A constant-clock run of at most 4097 calls from a fresh generator is
well-clocked: the forced advance happens, at the earliest, on the last call. -/
theorem stalled_clockOK (d T : Int) (hT0 : 0 < T) (hT : T ≤ 2 ^ 40) (n : Nat)
    (hn : n ≤ 4097) : ClockOK (NewSnowflakeGenerator d) (List.replicate n (T, [])) := by
  match n with
  | 0 => exact clockOK_nil _
  | k + 1 =>
    rw [List.replicate_succ, clockOK_cons]
    refine ⟨by simp [NewSnowflakeGenerator]; omega, hT, by simp, ?_⟩
    rw [mint_eq_diff [] (by simp [NewSnowflakeGenerator]; omega)]
    exact stalled_clockOK_aux _ T hT k 0 (le_refl 0) (by omega)

/-! ## Node-identity resolver lemmas -/

theorem findOctet_eq_zero {addrs : List InterfaceAddr} (h : noQualifyingAddr addrs) :
    findOctet addrs = 0 := by
  induction addrs with
  | nil => rfl
  | cons a rest ih =>
    have hrest : noQualifyingAddr rest := fun x hx => h x (List.mem_cons_of_mem a hx)
    unfold findOctet
    by_cases hq : a.isIPNet && !a.isLoopback
    · rw [if_pos hq]
      have h4 : a.to4 = none := by
        obtain ⟨h1, h2⟩ := Bool.and_eq_true_iff.mp hq
        exact h a (List.mem_cons_self a rest) h1 (by simpa using h2)
      rw [h4]
      exact ih hrest
    · rw [if_neg hq]
      exact ih hrest

/-! ## Random-hex lemmas -/

theorem hexEncodeToString_length (bs : List Nat) :
    (hexEncodeToString bs).length = 2 * bs.length := by
  show (bs.flatMap hexEncodeByte).length = 2 * bs.length
  induction bs with
  | nil => rfl
  | cons b rest ih =>
    simp only [List.flatMap_cons, List.length_append, ih, hexEncodeByte,
      List.length_cons, List.length_nil, List.length_cons]
    omega

theorem getD_hexTable_mem (i : Nat) : hexTable.getD i '0' ∈ hexTable := by
  rcases Nat.lt_or_ge i 16 with h | h
  · interval_cases i <;> decide
  · rw [List.getD_eq_default _ _ (by
      rw [show hexTable.length = 16 from rfl]; omega)]
    decide

theorem hexEncodeToString_mem {bs : List Nat} {c : Char}
    (h : c ∈ (hexEncodeToString bs).data) : c ∈ hexTable := by
  have h' : c ∈ bs.flatMap hexEncodeByte := h
  obtain ⟨b, _, hc⟩ := List.mem_flatMap.mp h'
  rcases List.mem_cons.mp hc with rfl | hc'
  · exact getD_hexTable_mem _
  · rcases List.mem_cons.mp hc' with rfl | hc''
    · exact getD_hexTable_mem _
    · simp at hc''

/-- Branch equation without the state invariant: same millisecond, masked
sequence nonzero. -/
theorem mint_eq_incr' {sg : SnowflakeGenerator} {now : Int} (polls : List Int)
    (heq : now = sg.lastTimestamp)
    (hne : int64and (sg.sequence + 1) 0xFFF ≠ 0) :
    sg.GenerateSnowflakeID now polls
      = (composeId now sg.machineID (int64and (sg.sequence + 1) 0xFFF),
         { sg with lastTimestamp := now,
                   sequence := int64and (sg.sequence + 1) 0xFFF }) := by
  unfold SnowflakeGenerator.GenerateSnowflakeID
  rw [if_pos heq]
  simp only [if_neg hne]

/-! ## Claim theorems -/

/-- C1, counterexample: with a successful enumeration that yields no
qualifying address (here: an empty address list) and pid 7, `getMachineID`
returns `0`, not `pid % 1024 = 7` — refuting the claim that the resolver
falls back to the process identifier in this case. -/
theorem C1_counterexample :
    noQualifyingAddr [] ∧ getMachineID (some []) 7 ≠ ((7 % 1024 : Nat) : Int) := by
  decide

/-- C1 (amended): if interface-address enumeration fails, the resolver
returns the process identifier modulo 1024; if enumeration succeeds but
yields no non-loopback IPv4 address, `getLastIPOctet` reports success with
octet `0`, so the resolver returns `0` and the pid fallback is not taken. -/
theorem C1_resolver_fallback (pid : Nat) (addrs : List InterfaceAddr)
    (h : noQualifyingAddr addrs) :
    getMachineID none pid = ((pid % 1024 : Nat) : Int) ∧
    getMachineID (some addrs) pid = 0 := by
  refine ⟨rfl, ?_⟩
  unfold getMachineID getLastIPOctet
  dsimp only
  rw [findOctet_eq_zero h]

theorem C1_resolver_fallback_witness :
    noQualifyingAddr
        [{ isIPNet := true, isLoopback := true, to4 := some (127, 0, 0, 1) },
         { isIPNet := false, isLoopback := false, to4 := some (10, 0, 0, 5) },
         { isIPNet := true, isLoopback := false, to4 := none }] ∧
      (getMachineID none 7 = ((7 % 1024 : Nat) : Int) ∧
        getMachineID
          (some [{ isIPNet := true, isLoopback := true, to4 := some (127, 0, 0, 1) },
                 { isIPNet := false, isLoopback := false, to4 := some (10, 0, 0, 5) },
                 { isIPNet := true, isLoopback := false, to4 := none }]) 7 = 0) :=
  ⟨by decide, C1_resolver_fallback 7 _ (by decide)⟩

/-- C2, counterexample: with a clock that moves backwards (readings 10 then
5), the second identifier is numerically smaller than the first — refuting
unconditional strict monotonicity over every possible clock sequence. -/
theorem C2_counterexample :
    ¬ List.Pairwise (· < ·) (runMint (NewSnowflakeGenerator 0) [(10, []), (5, [])]) := by
  decide

/-- C2 (amended): for identifiers minted by one generator instance, if at
every call the clock reading at entry is at least the generator's watermark
(in particular whenever the clock never moves backwards), then identifiers
are strictly increasing in order of return: earlier-returned < later-returned. -/
theorem C2_strict_monotonicity (d : Int) (calls : List (Int × List Int))
    (hck : ClockOK (NewSnowflakeGenerator d) calls) :
    List.Pairwise (· < ·) (runMint (NewSnowflakeGenerator d) calls) :=
  runMint_pairwise_lt (Inv_new d) hck

theorem C2_strict_monotonicity_witness :
    ClockOK (NewSnowflakeGenerator 0) [(5, []), (5, []), (7, [])] ∧
    List.Pairwise (· < ·)
      (runMint (NewSnowflakeGenerator 0) [(5, []), (5, []), (7, [])]) :=
  ⟨by decide, C2_strict_monotonicity 0 _ (by decide)⟩

/-- C6: the constructor stores `machineID & 0x3FF`, a value in `[0, 1023]`,
for every integer input (no input is rejected); in particular discriminator
2047 yields effective discriminator 1023. -/
theorem C6_discriminator_masked :
    (∀ m : Int, (NewSnowflakeGenerator m).machineID = int64and m 0x3FF ∧
      0 ≤ (NewSnowflakeGenerator m).machineID ∧
      (NewSnowflakeGenerator m).machineID < 1024) ∧
    (NewSnowflakeGenerator 2047).machineID = 1023 := by
  refine ⟨fun m => ?_, by decide⟩
  obtain ⟨h0, h1⟩ := int64and_mask_bounds m (by norm_num : (0 : Int) ≤ 0x3FF)
    (by norm_num : (0x3FF : Int) < 2 ^ 63)
  unfold NewSnowflakeGenerator
  dsimp only
  exact ⟨rfl, h0, by omega⟩

/-- C7: `GenerateSnowflakeID` returns on every call and every clock
behaviour: the busy-poll always exits, with a working timestamp that is
either the entry reading, the forced `lastTimestamp + 1` from the bounded
timeout, or a polled reading that advanced strictly past the watermark. -/
theorem C7_mint_always_returns (sg : SnowflakeGenerator) (now : Int)
    (polls : List Int) :
    ∃ v sg', sg.GenerateSnowflakeID now polls = (v, sg') ∧
      (sg'.lastTimestamp = now ∨ sg'.lastTimestamp = sg.lastTimestamp + 1 ∨
        (sg'.lastTimestamp ∈ polls ∧ sg.lastTimestamp < sg'.lastTimestamp)) := by
  by_cases heq : now = sg.lastTimestamp
  · by_cases hmask : int64and (sg.sequence + 1) 0xFFF = 0
    · rw [mint_eq_wrap polls heq hmask]
      refine ⟨_, _, rfl, ?_⟩
      dsimp only
      rcases pollLoop_cases sg.lastTimestamp now polls with h | h
      · exact Or.inr (Or.inl h)
      · rcases List.mem_cons.mp h with h' | h'
        · exact Or.inl h'
        · exact Or.inr (Or.inr ⟨h', pollLoop_gt _ _ _⟩)
    · rw [mint_eq_incr' polls heq hmask]
      exact ⟨_, _, rfl, Or.inl rfl⟩
  · rw [mint_eq_diff polls heq]
    exact ⟨_, _, rfl, Or.inl rfl⟩

/-- C8: on a successful entropy read, `GenerateRandomHexString n` returns
the lowercase-hex encoding of the `n` bytes read — a string of exactly
`2 * n` characters over `0-9a-f` — and on a failed read it returns exactly
the empty string. -/
theorem C8_random_hex (n : Nat) (f : Nat → Nat) :
    GenerateRandomHexString (n : Int) (some f)
      = some (hexEncodeToString ((List.range n).map (fun i => f i % 256))) ∧
    (hexEncodeToString ((List.range n).map (fun i => f i % 256))).length = 2 * n ∧
    (∀ c ∈ (hexEncodeToString ((List.range n).map (fun i => f i % 256))).data,
      c ∈ hexTable) ∧
    GenerateRandomHexString (n : Int) none = some "" := by
  refine ⟨?_, ?_, fun c hc => hexEncodeToString_mem hc, ?_⟩
  · unfold GenerateRandomHexString
    rw [if_neg (by omega : ¬(n : Int) < 0), Int.toNat_natCast]
  · rw [hexEncodeToString_length, List.length_map, List.length_range]
  · unfold GenerateRandomHexString
    rw [if_neg (by omega : ¬(n : Int) < 0)]

/-- C9: a successful zero-length request returns the empty string, exactly
the same value as the entropy-failure sentinel, so the two outcomes are
indistinguishable to callers. -/
theorem C9_zero_length_ambiguity (f : Nat → Nat) :
    GenerateRandomHexString 0 (some f) = some "" ∧
    GenerateRandomHexString 16 none = some "" ∧
    GenerateRandomHexString 0 (some f) = GenerateRandomHexString 16 none := by
  exact ⟨rfl, rfl, rfl⟩

/-- C10: for every negative length the byte-slice allocation aborts
(`make([]byte, length)` with negative length), so no string is returned:
the total always-succeeds-or-empty contract only holds for non-negative
lengths. -/
theorem C10_negative_length (n : Int) (entropy : Option (Nat → Nat))
    (h : n < 0) : GenerateRandomHexString n entropy = none := by
  unfold GenerateRandomHexString
  rw [if_pos h]

theorem C10_negative_length_witness :
    (-1 : Int) < 0 ∧ GenerateRandomHexString (-1) none = none :=
  ⟨by decide, C10_negative_length (-1) none (by decide)⟩

/-- C3, counterexample: 4098 consecutive calls during which the clock keeps
returning millisecond 1 (so the forced advance fires on call 4097, and call
4098 still reads the stalled clock).  Call 4098 re-adopts the stalled
millisecond in the `timestamp != lastTimestamp` branch and repeats call 1's
identifier, so the outputs are not pairwise distinct. -/
theorem C3_counterexample :
    ¬ List.Pairwise (· ≠ ·)
        (runMint (NewSnowflakeGenerator 0) (List.replicate 4098 (1, []))) := by
  intro hpw
  have hlen : (runMint (NewSnowflakeGenerator 0) (List.replicate 4098 (1, []))).length
      = 4098 := by
    rw [runMint_length, List.length_replicate]
  have h0 : (runMint (NewSnowflakeGenerator 0) (List.replicate 4098 (1, []))).get? 0
      = some (composeId 1 (int64and 0 0x3FF) 0) := by
    rw [runMint_replicate_get?, if_pos (by norm_num)]
    rw [stalled_id 0 1 (by norm_num) 0 (by norm_num), if_pos (by norm_num)]
    norm_num
  have h4096state : iterMint 1 [] (NewSnowflakeGenerator 0) 4096
      = { lastTimestamp := 1, sequence := 4095, machineID := int64and 0 0x3FF } := by
    have h := stalled_state 0 1 (by norm_num) 4096 (by norm_num) (by norm_num)
    rw [h]
    norm_num
  have h4097state : iterMint 1 [] (NewSnowflakeGenerator 0) 4097
      = { lastTimestamp := 2, sequence := 0, machineID := int64and 0 0x3FF } := by
    rw [show (4097 : Nat) = 4096 + 1 from rfl, iterMint_succ, h4096state]
    rw [mint_eq_wrap [] rfl
      (by rw [seq_mask_eq (by norm_num) (by norm_num)]; norm_num)]
    dsimp only
    rw [show pollLoop 1 1 [] = 2 by decide]
  have h4097 : (runMint (NewSnowflakeGenerator 0) (List.replicate 4098 (1, []))).get? 4097
      = some (composeId 1 (int64and 0 0x3FF) 0) := by
    rw [runMint_replicate_get?, if_pos (by norm_num), h4097state]
    rw [mint_eq_diff [] (by norm_num)]
  have h02 := h0.trans h4097.symm
  rw [List.get?_eq_getElem?, List.get?_eq_getElem?] at h02
  have := List.getElem?_inj (by omega) hpw h02
  omega

/-- C3 (amended): in a run of at most 4097 consecutive calls during which
the clock keeps returning the same millisecond `T`, all returned identifiers
are pairwise distinct, and every identifier returned after the 4096th call
has a timestamp field strictly greater than `T` (the forced advance).
Beyond 4097 calls the original claim fails (see the counterexample): the
next stalled-clock call re-adopts millisecond `T` and repeats identifiers. -/
theorem C3_sequence_exhaustion (d T : Int) (n : Nat) (hT0 : 0 < T)
    (hT : T ≤ 2 ^ 40) (hn : n ≤ 4097) :
    List.Pairwise (· ≠ ·)
      (runMint (NewSnowflakeGenerator d) (List.replicate n (T, []))) ∧
    (∀ j v, 4096 ≤ j →
      (runMint (NewSnowflakeGenerator d) (List.replicate n (T, []))).get? j = some v →
      T < int64shr v 22) := by
  constructor
  · exact (runMint_pairwise_lt (Inv_new d)
      (stalled_clockOK d T hT0 hT n hn)).imp (fun h => ne_of_lt h)
  · intro j v hj hv
    rw [runMint_replicate_get?] at hv
    by_cases hlt : j < n
    · rw [if_pos hlt] at hv
      have hj4096 : j = 4096 := by omega
      subst hj4096
      rw [stalled_id d T (by omega) 4096 (le_refl _), if_neg (by omega)] at hv
      obtain rfl : composeId (T + 1) (int64and d 0x3FF) 0 = v := Option.some.inj hv
      obtain ⟨hmm0, hmm1⟩ := int64and_mask_bounds d (by norm_num : (0 : Int) ≤ 0x3FF)
        (by norm_num : (0x3FF : Int) < 2 ^ 63)
      rw [decode_ts (by omega) (by omega) hmm0 (by omega) (by norm_num) (by norm_num)]
      omega
    · rw [if_neg hlt] at hv
      exact absurd hv (by simp)

theorem C3_sequence_exhaustion_witness :
    (0 : Int) < 1 ∧ (1 : Int) ≤ 2 ^ 40 ∧ (2 : Nat) ≤ 4097 ∧
    (List.Pairwise (· ≠ ·)
        (runMint (NewSnowflakeGenerator 0) (List.replicate 2 (1, []))) ∧
      (∀ j v, 4096 ≤ j →
        (runMint (NewSnowflakeGenerator 0) (List.replicate 2 (1, []))).get? j = some v →
        (1 : Int) < int64shr v 22)) :=
  ⟨by norm_num, by norm_num, by norm_num,
    C3_sequence_exhaustion 0 1 2 (by norm_num) (by norm_num) (by norm_num)⟩

/-- C4, counterexample: in a run of 4097 calls during which every clock
reading (at entry and in the poll) equals millisecond 1, the 4097th
identifier's timestamp field decodes to 2, which exceeds every clock value
observed during the call — refuting "v >> 22 is at most the clock value at
call return". -/
theorem C4_counterexample :
    (runMint (NewSnowflakeGenerator 0) (List.replicate 4097 (1, []))).get? 4096
      = some (composeId 2 (int64and 0 0x3FF) 0) ∧
    int64shr (composeId 2 (int64and 0 0x3FF) 0) 22 = 2 ∧ ¬((2 : Int) ≤ 1) := by
  refine ⟨?_, by decide, by decide⟩
  rw [runMint_replicate_get?, if_pos (by norm_num)]
  rw [stalled_id 0 1 (by norm_num) 4096 (le_refl _), if_neg (by norm_num)]
  norm_num

/-- C4 (amended): every value `v` returned by a call on a generator
configured with discriminator `d` (state reachable: invariant holds and the
machine id is `d & 0x3FF`) equals `(timestamp << 22) | ((d & 0x3FF) << 12) |
sequence` for the timestamp and sequence recorded by the call;
`(v >> 12) & 0x3FF` recovers the masked discriminator; `v & 0xFFF` lies in
`[0, 4095]`; and `v >> 22` is at least the clock value at call start and at
most the larger of the greatest clock value observed during the call and
`lastTimestamp + 1` — the original "at most the clock value at call return"
bound fails exactly when the forced timestamp advance fires. -/
theorem C4_bit_layout (d : Int) (sg : SnowflakeGenerator) (now R : Int)
    (polls : List Int) (hm : sg.machineID = int64and d 0x3FF) (hInv : Inv sg)
    (hnow0 : 0 ≤ now) (hnow : now ≤ 2 ^ 40)
    (hpolls : ∀ r ∈ polls, r ≤ 2 ^ 40) (hnowR : now ≤ R)
    (hpollsR : ∀ r ∈ polls, r ≤ R) :
    (sg.GenerateSnowflakeID now polls).1
        = composeId (sg.GenerateSnowflakeID now polls).2.lastTimestamp
            (int64and d 0x3FF) (sg.GenerateSnowflakeID now polls).2.sequence ∧
    int64and (int64shr (sg.GenerateSnowflakeID now polls).1 12) 0x3FF
        = int64and d 0x3FF ∧
    (0 ≤ int64and (sg.GenerateSnowflakeID now polls).1 0xFFF ∧
      int64and (sg.GenerateSnowflakeID now polls).1 0xFFF ≤ 4095) ∧
    now ≤ int64shr (sg.GenerateSnowflakeID now polls).1 22 ∧
    int64shr (sg.GenerateSnowflakeID now polls).1 22
      ≤ max R (sg.lastTimestamp + 1) := by
  obtain ⟨hl0, hs0, hs1, hm0, hm1⟩ := hInv
  rw [← hm]
  by_cases heq : now = sg.lastTimestamp
  · by_cases hwrap : sg.sequence = 4095
    · have hmask : int64and (sg.sequence + 1) 0xFFF = 0 := by
        rw [seq_mask_eq hs0 hs1, if_pos hwrap]
      rw [mint_eq_wrap polls heq hmask]
      dsimp only
      have hgt : sg.lastTimestamp < pollLoop sg.lastTimestamp now polls :=
        pollLoop_gt _ _ _
      have hle : pollLoop sg.lastTimestamp now polls
          ≤ max (2 ^ 40) (sg.lastTimestamp + 1) := pollLoop_le hnow hpolls
      have hleR : pollLoop sg.lastTimestamp now polls ≤ max R (sg.lastTimestamp + 1) :=
        pollLoop_le hnowR hpollsR
      refine ⟨rfl, ?_, ?_, ?_, ?_⟩
      · exact decode_machine (by omega) (by omega) hm0 hm1 (by norm_num) (by norm_num)
      · rw [decode_seq (by omega) (by omega) hm0 hm1 (by norm_num) (by norm_num)]
        norm_num
      · rw [decode_ts (by omega) (by omega) hm0 hm1 (by norm_num) (by norm_num)]
        omega
      · rw [decode_ts (by omega) (by omega) hm0 hm1 (by norm_num) (by norm_num)]
        exact hleR
    · have hmask : int64and (sg.sequence + 1) 0xFFF = sg.sequence + 1 := by
        rw [seq_mask_eq hs0 hs1, if_neg hwrap]
      rw [mint_eq_incr polls heq hmask (by omega)]
      dsimp only
      refine ⟨rfl, ?_, ?_, ?_, ?_⟩
      · exact decode_machine hnow0 (by omega) hm0 hm1 (by omega) (by omega)
      · rw [decode_seq hnow0 (by omega) hm0 hm1 (by omega) (by omega)]
        omega
      · rw [decode_ts hnow0 (by omega) hm0 hm1 (by omega) (by omega)]
      · rw [decode_ts hnow0 (by omega) hm0 hm1 (by omega) (by omega)]
        omega
  · rw [mint_eq_diff polls heq]
    dsimp only
    refine ⟨rfl, ?_, ?_, ?_, ?_⟩
    · exact decode_machine hnow0 (by omega) hm0 hm1 (by norm_num) (by norm_num)
    · rw [decode_seq hnow0 (by omega) hm0 hm1 (by norm_num) (by norm_num)]
      norm_num
    · rw [decode_ts hnow0 (by omega) hm0 hm1 (by norm_num) (by norm_num)]
    · rw [decode_ts hnow0 (by omega) hm0 hm1 (by norm_num) (by norm_num)]
      omega

theorem C4_bit_layout_witness :
    (NewSnowflakeGenerator 3).machineID = int64and 3 0x3FF ∧
    Inv (NewSnowflakeGenerator 3) ∧
    ((NewSnowflakeGenerator 3).GenerateSnowflakeID 5 []).1
        = composeId ((NewSnowflakeGenerator 3).GenerateSnowflakeID 5 []).2.lastTimestamp
            (int64and 3 0x3FF)
            ((NewSnowflakeGenerator 3).GenerateSnowflakeID 5 []).2.sequence ∧
    int64and (int64shr ((NewSnowflakeGenerator 3).GenerateSnowflakeID 5 []).1 12) 0x3FF
        = int64and 3 0x3FF ∧
    (0 ≤ int64and ((NewSnowflakeGenerator 3).GenerateSnowflakeID 5 []).1 0xFFF ∧
      int64and ((NewSnowflakeGenerator 3).GenerateSnowflakeID 5 []).1 0xFFF ≤ 4095) ∧
    (5 : Int) ≤ int64shr ((NewSnowflakeGenerator 3).GenerateSnowflakeID 5 []).1 22 ∧
    int64shr ((NewSnowflakeGenerator 3).GenerateSnowflakeID 5 []).1 22
      ≤ max 5 ((NewSnowflakeGenerator 3).lastTimestamp + 1) := by
  refine ⟨by decide, Inv_new 3, ?_⟩
  have h := C4_bit_layout 3 (NewSnowflakeGenerator 3) 5 5 [] rfl (Inv_new 3)
    (by norm_num) (by norm_num) (by simp) (by norm_num) (by simp)
  exact h

end EasyGoLib
